import Mathlib

/-!
Verification of the model-serving core of the APISubscriptionSystem repository
(`python-api/app/services/model_service.py` and the generation endpoints in
`python-api/app/api/endpoints/models.py`), shallowly embedded in Lean.

The Python service keeps two dictionaries, `available_models` (the registry of
descriptors) and `loaded_models` (the cache of live backend handles), and five
operations: `scan_models`, `load_model`, `unload_model`, `generate_text`,
`generate_image`, `run_onnx_model`. Python dictionaries are embedded as
association lists whose insert replaces the first matching key in place and
otherwise appends (matching CPython's insertion-order semantics); the external
backends (transformers, onnxruntime, diffusers) are abstracted as oracle
functions supplied in an environment, with `none` standing for a raised
exception that the Python `try/except` blocks catch.
-/

namespace ModelServiceSpec

/-- Association-list lookup, embedding Python `d[k]` / `k in d`. -/
def alookup {α : Type} (l : List (String × α)) (k : String) : Option α :=
  match l with
  | [] => none
  | (k', v) :: rest => if k' = k then some v else alookup rest k

/-- Association-list insert, embedding Python `d[k] = v`: replaces the first
matching key in place, otherwise appends (CPython insertion-order update). -/
def ainsert {α : Type} (l : List (String × α)) (k : String) (v : α) :
    List (String × α) :=
  match l with
  | [] => [(k, v)]
  | (k', v') :: rest =>
    if k' = k then (k, v) :: rest else (k', v') :: ainsert rest k v

/-- Association-list erase, embedding Python `del d[k]` (keys are unique in a
dict, so removing the first occurrence is exact). -/
def aerase {α : Type} (l : List (String × α)) (k : String) :
    List (String × α) :=
  match l with
  | [] => []
  | (k', v') :: rest => if k' = k then rest else (k', v') :: aerase rest k

/-- The keys of an association list. -/
def akeys {α : Type} (l : List (String × α)) : List String :=
  l.map Prod.fst

/-- Registry descriptor: one entry of `available_models`.
Mirrors the dict `{"path": ..., "type": ..., "loaded": ...}` written by
`scan_models`; `mtype` is the string tag `"transformers" | "onnx" |
"stable-diffusion"`. -/
structure ModelInfo where
  path : String
  mtype : String
  loaded : Bool
deriving DecidableEq, Repr

/-- An onnxruntime `InferenceSession` as the service observes it:
its declared input names, output names, and the (abstract) graph execution
`run`, taking the gathered named inputs to the list of output tensors.
Tensors are abstracted as `Nat`. -/
structure OnnxSession where
  inputNames : List String
  outputNames : List String
  run : List (String × Nat) → List Nat

/-- A live backend handle: one entry of `loaded_models`.
`text` holds the transformers `{"model": ..., "tokenizer": ...}` pair,
`onnx` the `{"session": ...}` entry, `sd` the `{"pipeline": ...}` entry.
The opaque torch objects are abstracted as `Nat` identifiers. -/
inductive Handle where
  | text (model tokenizer : Nat) : Handle
  | onnx (session : OnnxSession) : Handle
  | sd (pipeline : Nat) : Handle

/-- The mutable state of the `ModelService` singleton. `loadCalls` is pure
instrumentation recording, in order, each invocation of a backend `load`
(an `AutoModelForCausalLM.from_pretrained` / `ort.InferenceSession` /
`StableDiffusionPipeline.from_pretrained` call); it lets theorems speak
about how many times and for which names the underlying load ran. -/
structure ServiceState where
  available_models : List (String × ModelInfo)
  loaded_models : List (String × Handle)
  loadCalls : List String

/-- The empty state the constructor starts from before its `scan_models`. -/
def init0 : ServiceState := ⟨[], [], []⟩

/-- The external backends, abstracted: each field maps an artifact path to
`some` handle contents on success, or `none` when the library raises. -/
structure LoadEnv where
  loadTransformers : String → Option (Nat × Nat)
  loadOnnx : String → Option OnnxSession
  loadSD : String → Option Nat

/-- The three type tags `scan_models` can produce. -/
def backendKinds : List String := ["transformers", "onnx", "stable-diffusion"]

/-- The body of `load_model`'s `try` block, selecting the adapter by the
`type` tag. `.error ()` is a raised exception (caught by the `except`);
`.ok (some h)` is a successful load of handle `h`; `.ok none` is the
source's fall-through when the tag matches none of the three `if/elif`
branches (no handle is stored, yet the code proceeds to set `loaded=True`). -/
def tryLoadHandle (env : LoadEnv) (mtype path : String) :
    Except Unit (Option Handle) :=
  if mtype = "transformers" then
    match env.loadTransformers path with
    | some mt => .ok (some (.text mt.1 mt.2))
    | none => .error ()
  else if mtype = "onnx" then
    match env.loadOnnx path with
    | some sess => .ok (some (.onnx sess))
    | none => .error ()
  else if mtype = "stable-diffusion" then
    match env.loadSD path with
    | some p => .ok (some (.sd p))
    | none => .error ()
  else .ok (none)

/-- `ModelService.load_model`. Returns the Python boolean result together
with the successor state. A backend invocation is recorded in `loadCalls`
exactly when one of the three `if/elif` adapter branches runs. -/
def load_model (env : LoadEnv) (s : ServiceState) (name : String) :
    Bool × ServiceState :=
  match alookup s.available_models name with
  | none => (false, s)
  | some info =>
    if info.loaded then (true, s)
    else
      let s1 : ServiceState :=
        if info.mtype ∈ backendKinds then
          { s with loadCalls := s.loadCalls ++ [name] }
        else s
      match tryLoadHandle env info.mtype info.path with
      | .error _ => (false, s1)
      | .ok oh =>
        let s2 : ServiceState :=
          match oh with
          | some h =>
            { s1 with loaded_models := ainsert s1.loaded_models name h }
          | none => s1
        (true, { s2 with
          available_models :=
            ainsert s2.available_models name { info with loaded := true } })

/-- `ModelService.unload_model`. The source first `del`s the handle and only
then touches `available_models[name]`; if that second access raised
`KeyError` the `except` would return `False` with the handle already gone,
which the second branch mirrors (the `gc.collect()` / CUDA-cache calls have
no observable state effect here). -/
def unload_model (s : ServiceState) (name : String) : Bool × ServiceState :=
  match alookup s.loaded_models name with
  | none => (false, s)
  | some _ =>
    let lm := aerase s.loaded_models name
    match alookup s.available_models name with
    | none => (false, { s with loaded_models := lm })
    | some info =>
      (true, { s with
        loaded_models := lm,
        available_models :=
          ainsert s.available_models name { info with loaded := false } })

/-- Split a character list at every `/` (the groups of `str.split("/")`). -/
def splitSlash : List Char → List (List Char)
  | [] => [[]]
  | c :: rest =>
    match splitSlash rest with
    | [] => [[]]
    | g :: gs => if c = '/' then [] :: g :: gs else (c :: g) :: gs

/-- `os.path.basename`: the part of the path after the last separator. -/
def basename (p : String) : String :=
  String.mk ((splitSlash p.toList).getLastD [])

/-- `str.endswith(suffix)` over the character lists. -/
def strEndsWith (s suffix : String) : Bool :=
  suffix.toList.isSuffixOf s.toList

/-- The stem of `os.path.splitext`: drop the suffix after the last dot,
unless every character before that dot is itself a dot (CPython treats a
leading-dots-only prefix as part of the name, so `.onnx` has no extension).
Scan applies this only to entries of `files`, which contain no separator. -/
def splitextStem (f : String) : String :=
  let cs := f.toList
  let dots := (List.range cs.length).filter (fun i => cs.getD i ' ' = '.')
  match dots.getLast? with
  | none => f
  | some i =>
    if (List.range i).any (fun j => cs.getD j ' ' ≠ '.') then
      String.mk (cs.take i)
    else f

/-- One `(root, dirs, files)` triple yielded by `os.walk`; `dirs` is unused
by the scan body, so only `root` and `files` are kept. -/
structure WalkEntry where
  root : String
  files : List String

/-- The filesystem as scan observes it: whether the model directory exists,
and the `os.walk` sequence over it when it does. -/
structure FS where
  rootExists : Bool
  walk : List WalkEntry

/-- The body of `scan_models`'s walk loop for one `(root, dirs, files)`:
first the `config.json` check, then the `.onnx` file loop, then the
`model_index.json` check, each writing its descriptor into the registry. -/
def scanEntry (av : List (String × ModelInfo)) (e : WalkEntry) :
    List (String × ModelInfo) :=
  let av1 :=
    if e.files.contains "config.json" then
      ainsert av (basename e.root) ⟨e.root, "transformers", false⟩
    else av
  let av2 := e.files.foldl
    (fun acc f =>
      if strEndsWith f ".onnx" then
        ainsert acc (splitextStem f) ⟨e.root ++ "/" ++ f, "onnx", false⟩
      else acc)
    av1
  if e.files.contains "model_index.json" then
    ainsert av2 (basename e.root) ⟨e.root, "stable-diffusion", false⟩
  else av2

/-- `ModelService.scan_models`. When the root directory is missing it is
created (`os.makedirs`) and the method returns at once, registering
nothing; otherwise the walk loop folds over the tree, merging into the
existing registry. Returns the filesystem after the possible `makedirs`
together with the successor state. -/
def scan_models (fs : FS) (s : ServiceState) : FS × ServiceState :=
  if fs.rootExists = false then
    (⟨true, []⟩, s)
  else
    (fs, { s with available_models := fs.walk.foldl scanEntry s.available_models })

/-- `ModelService.get_available_models`: the listing projected from the
registry, one `{name, type, loaded}` record per entry in dict order. -/
def get_available_models (s : ServiceState) : List (String × String × Bool) :=
  s.available_models.map (fun nv => (nv.1, nv.2.mtype, nv.2.loaded))

/-- The `ModelService.__init__` state: empty caches, then `scan_models`. -/
def initService (fs : FS) : ServiceState :=
  (scan_models fs init0).2

/-- The generation backends, abstracted: `genText model tokenizer prompt
maxTokens` is the tokenize/`model.generate`/decode body, `genImage pipeline
prompt` the diffusion call plus PNG encoding (bytes as `List Nat`). `none`
is a raised exception, caught by the surrounding `except`. -/
structure GenEnv where
  genText : Nat → Nat → String → Nat → Option String
  genImage : Nat → String → Option (List Nat)

/-- `ModelService.generate_text`. Note the source order: the lazy
`load_model` runs BEFORE the `type != "transformers"` check. A `none`
result is the Python `None` (load failure, type mismatch, or a caught
generation exception). If the name were in `loaded_models` but absent from
`available_models` the source would raise an uncaught `KeyError`; that
state is unreachable and is rendered as `none` here. -/
def generate_text (env : LoadEnv) (genv : GenEnv) (s : ServiceState)
    (name prompt : String) (maxTokens : Nat) : Option String × ServiceState :=
  let r :=
    if (alookup s.loaded_models name).isNone then load_model env s name
    else (true, s)
  if r.1 = false then (none, r.2)
  else
    match alookup r.2.available_models name with
    | none => (none, r.2)
    | some info =>
      if info.mtype ≠ "transformers" then (none, r.2)
      else
        match alookup r.2.loaded_models name with
        | some (.text m tok) => (genv.genText m tok prompt maxTokens, r.2)
        | _ => (none, r.2)

/-- `ModelService.generate_image`. Same shape as `generate_text`, with the
`type != "stable-diffusion"` check after the lazy load. -/
def generate_image (env : LoadEnv) (genv : GenEnv) (s : ServiceState)
    (name prompt : String) : Option (List Nat) × ServiceState :=
  let r :=
    if (alookup s.loaded_models name).isNone then load_model env s name
    else (true, s)
  if r.1 = false then (none, r.2)
  else
    match alookup r.2.available_models name with
    | none => (none, r.2)
    | some info =>
      if info.mtype ≠ "stable-diffusion" then (none, r.2)
      else
        match alookup r.2.loaded_models name with
        | some (.sd p) => (genv.genImage p prompt, r.2)
        | _ => (none, r.2)

/-- The input-gathering loop of `run_onnx_model`: for each session input
name in order, take the supplied tensor or fail (`Required input ... not
provided` → return `None`). -/
def gatherInputs (required : List String) (inputs : List (String × Nat)) :
    Option (List (String × Nat)) :=
  match required with
  | [] => some []
  | n :: rest =>
    match alookup inputs n with
    | none => none
    | some v => (gatherInputs rest inputs).map (fun acc => (n, v) :: acc)

/-- The output dict comprehension `{name: outputs[i] for i, name in
enumerate(output_names)}`, as a dict built by insertion. -/
def buildOutputs (names : List String) (outputs : List Nat) :
    List (String × Nat) :=
  (names.zip outputs).foldl (fun acc nv => ainsert acc nv.1 nv.2) []

/-- `ModelService.run_onnx_model`. After the lazy load and the
`type != "onnx"` check: gather the session's required inputs (failing on
the first missing name), run the session, and pair output names with the
returned tensors; were `session.run` to return fewer tensors than output
names, the comprehension's `IndexError` is caught and yields `None`. -/
def run_onnx_model (env : LoadEnv) (s : ServiceState) (name : String)
    (inputs : List (String × Nat)) :
    Option (List (String × Nat)) × ServiceState :=
  let r :=
    if (alookup s.loaded_models name).isNone then load_model env s name
    else (true, s)
  if r.1 = false then (none, r.2)
  else
    match alookup r.2.available_models name with
    | none => (none, r.2)
    | some info =>
      if info.mtype ≠ "onnx" then (none, r.2)
      else
        match alookup r.2.loaded_models name with
        | some (.onnx sess) =>
          match gatherInputs sess.inputNames inputs with
          | none => (none, r.2)
          | some onnxInputs =>
            let outputs := sess.run onnxInputs
            if sess.outputNames.length ≤ outputs.length then
              (some (buildOutputs sess.outputNames outputs), r.2)
            else (none, r.2)
        | _ => (none, r.2)

/-! ## HTTP endpoint layer (`app/api/endpoints/models.py`)

Only the dispatch-and-billing tail of the endpoint bodies is embedded: the
database model lookup, authentication and usage logging that precede and
follow it are external collaborators per the spec's scope. -/

/-- Worker for `str.split()`: walk the characters, accumulating the current
(reversed) token; whitespace ends a token, and empty tokens are dropped. -/
def splitWsAux : List Char → List Char → List String
  | [], acc => if acc.isEmpty then [] else [String.mk acc.reverse]
  | c :: rest, acc =>
    if c.isWhitespace then
      if acc.isEmpty then splitWsAux rest []
      else String.mk acc.reverse :: splitWsAux rest []
    else splitWsAux rest (c :: acc)

/-- Python `str.split()` with no separator: split on whitespace runs and
discard empty pieces. -/
def pySplit (s : String) : List String :=
  splitWsAux s.toList []

/-- The `/text-generation` success payload `{text, tokens_used, model}`. -/
structure TextGenResponse where
  text : String
  tokens_used : Nat
  modelName : String
deriving DecidableEq, Repr

/-- The `/image-generation` success payload: the PNG bytes written to disk
(whose URL the JSON response carries) plus the fixed `tokens_used = 1000`. -/
structure ImageGenResponse where
  image_bytes : List Nat
  tokens_used : Nat
deriving DecidableEq, Repr

/-- The `generate_text` endpoint after auth and model lookup: call the
service, treat a falsy result (`None` or the empty string, via
`if not generated_text`) as the HTTP 500 failure (`none`), otherwise bill
`len(prompt.split()) + len(generated_text.split())` tokens. -/
def generate_text_endpoint (env : LoadEnv) (genv : GenEnv) (s : ServiceState)
    (name prompt : String) (maxTokens : Nat) :
    Option TextGenResponse × ServiceState :=
  let r := generate_text env genv s name prompt maxTokens
  match r.1 with
  | none => (none, r.2)
  | some t =>
    if t = "" then (none, r.2)
    else
      (some ⟨t, (pySplit prompt).length + (pySplit t).length, name⟩, r.2)

/-- The `generate_image` endpoint after auth and model lookup: call the
service, treat a falsy result (`None` or empty bytes, via
`if not image_bytes`) as the HTTP 500 failure (`none`), otherwise return
the payload with the fixed 1000-token charge. -/
def generate_image_endpoint (env : LoadEnv) (genv : GenEnv) (s : ServiceState)
    (name prompt : String) : Option ImageGenResponse × ServiceState :=
  let r := generate_image env genv s name prompt
  match r.1 with
  | none => (none, r.2)
  | some bs =>
    if bs = [] then (none, r.2)
    else (some ⟨bs, 1000⟩, r.2)

/-! ## Interleaving semantics of `load_model`

The Python service takes no lock: between the `loaded` check and the
assignment of the freshly loaded handle, the thread blocks in library I/O
(`from_pretrained` / `InferenceSession`) and other request threads run.
`loadStep` is `load_model` cut at exactly that point: phase `start` is the
registry lookup and `loaded`-flag check, phase `doLoad` is the backend load
together with the two commit writes (kept atomic here, which is coarser —
hence more favourable to the code — than the real interleaving).
`loadRun`, which drives a single thread to completion, coincides with
`load_model`. -/

/-- Program counter of one thread inside `load_model`. -/
inductive LoadPhase where
  | start : LoadPhase
  | doLoad (info : ModelInfo) : LoadPhase
  | done (result : Bool) : LoadPhase

/-- One thread executing `load_model name`. -/
structure LoadThread where
  name : String
  phase : LoadPhase

/-- One atomic step of a thread inside `load_model`. -/
def loadStep (env : LoadEnv) (s : ServiceState) (t : LoadThread) :
    ServiceState × LoadThread :=
  match t.phase with
  | .start =>
    match alookup s.available_models t.name with
    | none => (s, { t with phase := .done false })
    | some info =>
      if info.loaded then (s, { t with phase := .done true })
      else (s, { t with phase := .doLoad info })
  | .doLoad info =>
    let s1 : ServiceState :=
      if info.mtype ∈ backendKinds then
        { s with loadCalls := s.loadCalls ++ [t.name] }
      else s
    match tryLoadHandle env info.mtype info.path with
    | .error _ => (s1, { t with phase := .done false })
    | .ok oh =>
      let s2 : ServiceState :=
        match oh with
        | some h =>
          { s1 with loaded_models := ainsert s1.loaded_models t.name h }
        | none => s1
      ({ s2 with
          available_models :=
            ainsert s2.available_models t.name { info with loaded := true } },
        { t with phase := .done true })
  | .done _ => (s, t)

/-- Driving a single `load_model` thread to completion (it finishes within
two steps). -/
def loadRun (env : LoadEnv) (s : ServiceState) (name : String) :
    Bool × ServiceState :=
  let r1 := loadStep env s ⟨name, .start⟩
  let r2 := loadStep env r1.1 r1.2
  match r2.2.phase with
  | .done b => (b, r2.1)
  | _ => (false, r2.1)

/-- Two threads interleaved by an explicit schedule: `true` steps the first
thread, `false` the second. -/
def runSched (env : LoadEnv) :
    List Bool → ServiceState × LoadThread × LoadThread →
    ServiceState × LoadThread × LoadThread
  | [], c => c
  | true :: rest, (s, t1, t2) =>
    let r := loadStep env s t1
    runSched env rest (r.1, r.2, t2)
  | false :: rest, (s, t1, t2) =>
    let r := loadStep env s t2
    runSched env rest (r.1, t1, r.2)

/-! ## Operation sequences over the service -/

/-- One call to the service surface (`scan_models` excluded; its interaction
with loaded models is treated separately). -/
inductive Op where
  | load (name : String) : Op
  | unload (name : String) : Op
  | genText (name prompt : String) (maxTokens : Nat) : Op
  | genImage (name prompt : String) : Op
  | runOnnx (name : String) (inputs : List (String × Nat)) : Op

/-- State effect of one operation. -/
def applyOp (env : LoadEnv) (genv : GenEnv) (s : ServiceState) : Op → ServiceState
  | .load n => (load_model env s n).2
  | .unload n => (unload_model s n).2
  | .genText n p mt => (generate_text env genv s n p mt).2
  | .genImage n p => (generate_image env genv s n p).2
  | .runOnnx n ins => (run_onnx_model env s n ins).2

/-- State after a sequence of service calls. -/
def runOps (env : LoadEnv) (genv : GenEnv) (s : ServiceState)
    (ops : List Op) : ServiceState :=
  ops.foldl (applyOp env genv) s

/-- The claimed lifecycle invariant: a registry entry is flagged loaded
exactly when a live handle exists for that name, at most one handle per
name, and every registered type tag is one of the scanner's three kinds. -/
def wellFormed (s : ServiceState) : Prop :=
  (∀ n, (∃ info, alookup s.available_models n = some info ∧ info.loaded = true)
      ↔ (alookup s.loaded_models n).isSome = true)
  ∧ (akeys s.loaded_models).Nodup
  ∧ (∀ n info, alookup s.available_models n = some info →
      info.mtype ∈ backendKinds)

/-! ## Scan as a fold of registry writes: definitions -/

/-- Folding a sequence of keyed writes into a dict. -/
def foldIns {α : Type} (m0 : List (String × α)) (evs : List (String × α)) :
    List (String × α) :=
  evs.foldl (fun m p => ainsert m p.1 p.2) m0

/-- The value of the last write to key `k` in the sequence, if any. -/
def lastWrite {α : Type} (evs : List (String × α)) (k : String) : Option α :=
  match evs with
  | [] => none
  | p :: rest =>
    match lastWrite rest k with
    | some v => some v
    | none => if p.1 = k then some p.2 else none

/-- The registry writes performed by the scan body on one walk triple, in
source order: the `config.json` write, then one write per `.onnx` file,
then the `model_index.json` write. -/
def entryEvents (e : WalkEntry) : List (String × ModelInfo) :=
  (if e.files.contains "config.json" then
    [(basename e.root, ⟨e.root, "transformers", false⟩)]
  else [])
  ++ e.files.filterMap (fun f =>
      if strEndsWith f ".onnx" then
        some (splitextStem f, ⟨e.root ++ "/" ++ f, "onnx", false⟩)
      else none)
  ++ (if e.files.contains "model_index.json" then
    [(basename e.root, ⟨e.root, "stable-diffusion", false⟩)]
  else [])

/-- All registry writes of a scan over the whole walk, in order. -/
def scanEvents (fs : FS) : List (String × ModelInfo) :=
  fs.walk.flatMap entryEvents

/-! ## Concrete test fixtures

Small artifact trees and backend environments used to evaluate the
operations on closed inputs. -/

/-- A walk with a single transformers artifact `models/m/config.json`. -/
def fsText : FS := ⟨true, [⟨"models/m", ["config.json"]⟩]⟩

/-- A walk with a single diffusion artifact `models/sd/model_index.json`. -/
def fsSD : FS := ⟨true, [⟨"models/sd", ["model_index.json"]⟩]⟩

/-- A walk where two artifacts resolve to the same name `a`: a transformers
directory `r/a` scanned first and a diffusion directory `q/a` scanned
later. -/
def fsColl : FS :=
  ⟨true, [⟨"r/a", ["config.json", "x.onnx"]⟩, ⟨"q/a", ["model_index.json"]⟩]⟩

/-- A tiny inference session: one input `a`, one output `o`, and a graph
that always yields the tensor `42`. -/
def sess0 : OnnxSession := ⟨["a"], ["o"], fun _ => [42]⟩

/-- Backends that always succeed. -/
def envOk : LoadEnv := ⟨fun _ => some (1, 2), fun _ => some sess0, fun _ => some 7⟩

/-- Backends that always raise. -/
def envFail : LoadEnv := ⟨fun _ => none, fun _ => none, fun _ => none⟩

/-- Generation backends: text generation echoes the prompt with a suffix,
image generation yields three bytes. -/
def genvOk : GenEnv :=
  ⟨fun _ _ p _ => some (p ++ " out"), fun _ _ => some [1, 2, 3]⟩

/-- A service state holding one loaded TensorGraph model `x`. -/
def sOnnx : ServiceState :=
  ⟨[("x", ⟨"models/x.onnx", "onnx", true⟩)], [("x", .onnx sess0)], []⟩

/-! ## Association-list lemmas -/

theorem alookup_ainsert_self {α : Type} (l : List (String × α)) (k : String)
    (v : α) : alookup (ainsert l k v) k = some v := by
  induction l with
  | nil => simp [ainsert, alookup]
  | cons p rest ih =>
    by_cases h : p.1 = k
    · simp [ainsert, h, alookup]
    · simp [ainsert, h, alookup, ih]

theorem alookup_ainsert_ne {α : Type} (l : List (String × α)) (k k' : String)
    (v : α) (h : k' ≠ k) : alookup (ainsert l k v) k' = alookup l k' := by
  induction l with
  | nil =>
    simp only [ainsert, alookup]
    rw [if_neg (Ne.symm h)]
  | cons p rest ih =>
    by_cases hp : p.1 = k
    · simp only [ainsert, if_pos hp, alookup]
      rw [if_neg (Ne.symm h), if_neg (fun hc : p.1 = k' => h ((hp ▸ hc).symm))]
    · simp only [ainsert, if_neg hp, alookup]
      rw [ih]

theorem mem_akeys_ainsert {α : Type} (l : List (String × α)) (k x : String)
    (v : α) : x ∈ akeys (ainsert l k v) ↔ x ∈ akeys l ∨ x = k := by
  induction l with
  | nil => simp [ainsert, akeys]
  | cons p rest ih =>
    by_cases hp : p.1 = k
    · subst hp
      have he : ainsert (p :: rest) p.1 v = (p.1, v) :: rest := by
        simp [ainsert]
      rw [he]
      simp only [akeys, List.map_cons, List.mem_cons]
      tauto
    · simp only [ainsert, if_neg hp, akeys, List.map_cons, List.mem_cons]
      rw [akeys] at ih
      rw [ih]
      tauto

theorem akeys_ainsert_nodup {α : Type} (l : List (String × α)) (k : String)
    (v : α) (h : (akeys l).Nodup) : (akeys (ainsert l k v)).Nodup := by
  induction l with
  | nil => simp [ainsert, akeys]
  | cons p rest ih =>
    rw [akeys, List.map_cons, List.nodup_cons] at h
    by_cases hp : p.1 = k
    · simp only [ainsert, if_pos hp, akeys, List.map_cons, List.nodup_cons]
      exact ⟨hp ▸ h.1, h.2⟩
    · simp only [ainsert, if_neg hp, akeys, List.map_cons, List.nodup_cons]
      refine ⟨?_, ih h.2⟩
      rw [show List.map Prod.fst (ainsert rest k v) = akeys (ainsert rest k v)
        from rfl, mem_akeys_ainsert]
      push_neg
      exact ⟨h.1, hp⟩

theorem aerase_sublist {α : Type} (l : List (String × α)) (k : String) :
    (aerase l k).Sublist l := by
  induction l with
  | nil => simp [aerase]
  | cons p rest ih =>
    by_cases hp : p.1 = k
    · rw [aerase, if_pos hp]
      exact List.sublist_cons_self p rest
    · rw [aerase, if_neg hp]
      exact ih.cons₂ p

theorem akeys_aerase_nodup {α : Type} (l : List (String × α)) (k : String)
    (h : (akeys l).Nodup) : (akeys (aerase l k)).Nodup :=
  ((aerase_sublist l k).map Prod.fst).nodup h

theorem alookup_eq_none_of_not_mem {α : Type} (l : List (String × α))
    (k : String) (h : k ∉ akeys l) : alookup l k = none := by
  induction l with
  | nil => simp [alookup]
  | cons p rest ih =>
    rw [akeys, List.map_cons, List.mem_cons] at h
    push_neg at h
    simp only [alookup, if_neg (fun hc : p.1 = k => h.1 hc.symm)]
    exact ih h.2

theorem alookup_aerase_self {α : Type} (l : List (String × α)) (k : String)
    (h : (akeys l).Nodup) : alookup (aerase l k) k = none := by
  induction l with
  | nil => simp [aerase, alookup]
  | cons p rest ih =>
    rw [akeys, List.map_cons, List.nodup_cons] at h
    by_cases hp : p.1 = k
    · simp only [aerase, if_pos hp]
      exact alookup_eq_none_of_not_mem rest k (hp ▸ h.1)
    · simp only [aerase, if_neg hp, alookup, if_neg hp]
      exact ih h.2

theorem alookup_aerase_ne {α : Type} (l : List (String × α)) (k k' : String)
    (h : k' ≠ k) : alookup (aerase l k) k' = alookup l k' := by
  induction l with
  | nil => simp [aerase]
  | cons p rest ih =>
    by_cases hp : p.1 = k
    · simp only [aerase, if_pos hp, alookup]
      rw [if_neg (fun hc : p.1 = k' => h ((hp ▸ hc).symm))]
    · simp only [aerase, if_neg hp, alookup]
      rw [ih]

theorem alookup_mem {α : Type} {l : List (String × α)} {k : String} {v : α}
    (h : alookup l k = some v) : (k, v) ∈ l := by
  induction l with
  | nil => simp [alookup] at h
  | cons p rest ih =>
    by_cases hp : p.1 = k
    · simp only [alookup, if_pos hp] at h
      cases h
      have hpe : p = (k, p.2) := by rw [← hp]
      rw [← hpe]
      exact List.mem_cons_self p rest
    · simp only [alookup, if_neg hp] at h
      exact List.mem_cons_of_mem p (ih h)

/-! ## Scan as a fold of registry writes -/

theorem foldIns_cons {α : Type} (m0 : List (String × α)) (p : String × α)
    (evs : List (String × α)) :
    foldIns m0 (p :: evs) = foldIns (ainsert m0 p.1 p.2) evs := rfl

theorem foldIns_append {α : Type} (m0 : List (String × α))
    (a b : List (String × α)) :
    foldIns m0 (a ++ b) = foldIns (foldIns m0 a) b := by
  simp [foldIns, List.foldl_append]

theorem alookup_foldIns {α : Type} (evs : List (String × α))
    (m0 : List (String × α)) (k : String) :
    alookup (foldIns m0 evs) k =
      match lastWrite evs k with
      | some v => some v
      | none => alookup m0 k := by
  induction evs generalizing m0 with
  | nil => rfl
  | cons p rest ih =>
    rw [foldIns_cons, ih (ainsert m0 p.1 p.2), lastWrite]
    cases hlw : lastWrite rest k with
    | some v => rfl
    | none =>
      by_cases hp : p.1 = k
      · rw [if_pos hp, hp, alookup_ainsert_self]
      · rw [if_neg hp, alookup_ainsert_ne m0 p.1 k p.2 (fun hc => hp hc.symm)]

theorem lastWrite_mem {α : Type} {evs : List (String × α)} {k : String}
    {v : α} (h : lastWrite evs k = some v) : (k, v) ∈ evs := by
  induction evs with
  | nil => simp [lastWrite] at h
  | cons p rest ih =>
    rw [lastWrite] at h
    cases hlw : lastWrite rest k with
    | some w =>
      rw [hlw] at h
      cases h
      exact List.mem_cons_of_mem p (ih hlw)
    | none =>
      rw [hlw] at h
      by_cases hp : p.1 = k
      · rw [if_pos hp] at h
        cases h
        have hpe : p = (k, p.2) := by rw [← hp]
        rw [← hpe]
        exact List.mem_cons_self p rest
      · rw [if_neg hp] at h
        cases h

theorem lastWrite_isSome_iff {α : Type} (evs : List (String × α))
    (k : String) : (lastWrite evs k).isSome = true ↔ k ∈ evs.map Prod.fst := by
  induction evs with
  | nil => simp [lastWrite]
  | cons p rest ih =>
    rw [lastWrite]
    cases hlw : lastWrite rest k with
    | some v =>
      simp only [Option.isSome_some, List.map_cons, List.mem_cons, true_iff]
      right
      rw [← ih]
      simp [hlw]
    | none =>
      rw [hlw] at ih
      simp only [Option.isSome_none, Bool.false_eq_true, false_iff] at ih
      by_cases hp : p.1 = k
      · simp [if_pos hp, hp.symm]
      · simp only [if_neg hp, Option.isSome_none, Bool.false_eq_true,
          false_iff, List.map_cons, List.mem_cons]
        push_neg
        exact ⟨fun hc => hp hc.symm, ih⟩

theorem akeys_foldIns_nodup {α : Type} (evs : List (String × α))
    (m0 : List (String × α)) (h : (akeys m0).Nodup) :
    (akeys (foldIns m0 evs)).Nodup := by
  induction evs generalizing m0 with
  | nil => exact h
  | cons p rest ih =>
    rw [foldIns_cons]
    exact ih (ainsert m0 p.1 p.2) (akeys_ainsert_nodup m0 p.1 p.2 h)

theorem scanEntry_eq_foldIns (av : List (String × ModelInfo)) (e : WalkEntry) :
    scanEntry av e = foldIns av (entryEvents e) := by
  rw [entryEvents, foldIns_append, foldIns_append, scanEntry]
  have h1 : (if e.files.contains "config.json" then
      ainsert av (basename e.root) ⟨e.root, "transformers", false⟩ else av) =
      foldIns av (if e.files.contains "config.json" then
        [(basename e.root, ⟨e.root, "transformers", false⟩)] else []) := by
    by_cases hc : e.files.contains "config.json" = true
    · rw [if_pos hc, if_pos hc]
      rfl
    · rw [if_neg hc, if_neg hc]
      rfl
  rw [← h1]
  have h3 : ∀ (m : List (String × ModelInfo)),
      (if e.files.contains "model_index.json" then
        ainsert m (basename e.root) ⟨e.root, "stable-diffusion", false⟩
      else m) =
      foldIns m (if e.files.contains "model_index.json" then
        [(basename e.root, ⟨e.root, "stable-diffusion", false⟩)] else []) := by
    intro m
    by_cases hc : e.files.contains "model_index.json" = true
    · rw [if_pos hc, if_pos hc]
      rfl
    · rw [if_neg hc, if_neg hc]
      rfl
  rw [← h3]
  have h2 : ∀ (files : List String) (m : List (String × ModelInfo)),
      files.foldl (fun acc f =>
        if strEndsWith f ".onnx" then
          ainsert acc (splitextStem f) ⟨e.root ++ "/" ++ f, "onnx", false⟩
        else acc) m =
      foldIns m (files.filterMap (fun f =>
        if strEndsWith f ".onnx" then
          some (splitextStem f, ⟨e.root ++ "/" ++ f, "onnx", false⟩)
        else none)) := by
    intro files
    induction files with
    | nil => intro m; rfl
    | cons f rest ihf =>
      intro m
      by_cases hf : strEndsWith f ".onnx" = true
      · simp only [List.foldl_cons, List.filterMap_cons, if_pos hf, ihf,
          foldIns_cons]
      · simp only [List.foldl_cons, List.filterMap_cons, if_neg hf, ihf]
  rw [h2]

theorem scan_available (fs : FS) (s : ServiceState)
    (h : fs.rootExists = true) :
    (scan_models fs s).2.available_models =
      foldIns s.available_models (scanEvents fs) := by
  rw [scan_models]
  simp only [h]
  show (fs.walk.foldl scanEntry s.available_models) = _
  rw [scanEvents]
  induction fs.walk generalizing s with
  | nil => rfl
  | cons e rest ihw =>
    rw [List.foldl_cons, List.flatMap_cons, foldIns_append,
      ← scanEntry_eq_foldIns]
    exact ihw { s with available_models := scanEntry s.available_models e }

theorem scan_loaded_models (fs : FS) (s : ServiceState) :
    (scan_models fs s).2.loaded_models = s.loaded_models := by
  rw [scan_models]
  by_cases h : fs.rootExists = false <;> simp [h]

/-- Every registry write produced by a scan records an unloaded descriptor
with one of the three known type tags. -/
theorem scanEvents_values (fs : FS) (p : String × ModelInfo)
    (h : p ∈ scanEvents fs) :
    p.2.loaded = false ∧ p.2.mtype ∈ backendKinds := by
  rw [scanEvents, List.mem_flatMap] at h
  obtain ⟨e, _, hmem⟩ := h
  rw [entryEvents] at hmem
  simp only [List.mem_append, List.mem_filterMap] at hmem
  rcases hmem with (h1 | h2) | h3
  · by_cases hc : e.files.contains "config.json"
    · rw [if_pos hc] at h1
      simp only [List.mem_singleton] at h1
      subst h1
      simp [backendKinds]
    · rw [if_neg hc] at h1
      simp at h1
  · obtain ⟨f, _, hf⟩ := h2
    by_cases he : strEndsWith f ".onnx" = true
    · rw [if_pos he] at hf
      cases hf
      simp [backendKinds]
    · rw [if_neg he] at hf
      cases hf
  · by_cases hc : e.files.contains "model_index.json"
    · rw [if_pos hc] at h3
      simp only [List.mem_singleton] at h3
      subst h3
      simp [backendKinds]
    · rw [if_neg hc] at h3
      simp at h3

/-! ## Preservation of the lifecycle invariant (sequential operations) -/

/-- On the three known type tags the adapter dispatch either raises or
produces a handle; the no-branch fall-through happens only for tags the
scanner never writes. -/
theorem tryLoadHandle_cases (env : LoadEnv) (mtype path : String)
    (h : mtype ∈ backendKinds) :
    tryLoadHandle env mtype path = .error () ∨
      ∃ hd, tryLoadHandle env mtype path = .ok (some hd) := by
  rw [backendKinds] at h
  simp only [List.mem_cons, List.not_mem_nil, or_false] at h
  rcases h with h | h | h
  · subst h
    rw [tryLoadHandle]
    simp only [if_pos rfl]
    cases henv : env.loadTransformers path with
    | none => exact Or.inl rfl
    | some mt => exact Or.inr ⟨.text mt.1 mt.2, rfl⟩
  · subst h
    rw [tryLoadHandle]
    rw [if_neg (by simp), if_pos rfl]
    cases henv : env.loadOnnx path with
    | none => exact Or.inl rfl
    | some sess => exact Or.inr ⟨.onnx sess, rfl⟩
  · subst h
    rw [tryLoadHandle]
    rw [if_neg (by simp), if_neg (by simp), if_pos rfl]
    cases henv : env.loadSD path with
    | none => exact Or.inl rfl
    | some p => exact Or.inr ⟨.sd p, rfl⟩

/-- A successful cold load commits the handle and the flag together, so the
invariant survives `load_model`. -/
theorem load_model_wf (env : LoadEnv) (s : ServiceState) (name : String)
    (h : wellFormed s) : wellFormed (load_model env s name).2 := by
  obtain ⟨hiff, hnd, hty⟩ := h
  rw [load_model]
  split
  · exact ⟨hiff, hnd, hty⟩
  · rename_i info hav
    split
    · exact ⟨hiff, hnd, hty⟩
    · rename_i hl
      have hkind : info.mtype ∈ backendKinds := hty name info hav
      rw [if_pos hkind]
      rcases tryLoadHandle_cases env info.mtype info.path hkind with
        htr | ⟨hd, htr⟩
      · rw [htr]
        exact ⟨hiff, hnd, hty⟩
      · rw [htr]
        show wellFormed
          { available_models :=
              ainsert s.available_models name { info with loaded := true },
            loaded_models := ainsert s.loaded_models name hd,
            loadCalls := s.loadCalls ++ [name] }
        refine ⟨?_, ?_, ?_⟩
        · intro n
          by_cases hn : n = name
          · subst hn
            simp only [alookup_ainsert_self]
            constructor
            · intro _
              simp
            · intro _
              exact ⟨{ info with loaded := true }, rfl, rfl⟩
          · simp only [alookup_ainsert_ne _ _ _ _ hn]
            exact hiff n
        · exact akeys_ainsert_nodup _ _ _ hnd
        · intro n info' hlk
          by_cases hn : n = name
          · subst hn
            rw [alookup_ainsert_self] at hlk
            cases hlk
            exact hkind
          · rw [alookup_ainsert_ne _ _ _ _ hn] at hlk
            exact hty n info' hlk

/-- `unload_model` removes the handle and clears the flag together, so the
invariant survives it. -/
theorem unload_model_wf (s : ServiceState) (name : String)
    (h : wellFormed s) : wellFormed (unload_model s name).2 := by
  obtain ⟨hiff, hnd, hty⟩ := h
  rw [unload_model]
  split
  · exact ⟨hiff, hnd, hty⟩
  · rename_i hd hlm
    have hsome : (alookup s.loaded_models name).isSome = true := by
      rw [hlm]; rfl
    obtain ⟨info, hav, hload⟩ := (hiff name).mpr hsome
    rw [hav]
    show wellFormed
      { available_models :=
          ainsert s.available_models name { info with loaded := false },
        loaded_models := aerase s.loaded_models name,
        loadCalls := s.loadCalls }
    refine ⟨?_, ?_, ?_⟩
    · intro n
      by_cases hn : n = name
      · subst hn
        simp only [alookup_ainsert_self, alookup_aerase_self _ _ hnd]
        constructor
        · rintro ⟨info', hinfo', hload'⟩
          cases hinfo'
          simp at hload'
        · intro hc
          simp [Option.isSome] at hc
      · simp only [alookup_ainsert_ne _ _ _ _ hn, alookup_aerase_ne _ _ _ hn]
        exact hiff n
    · exact akeys_aerase_nodup _ _ hnd
    · intro n info' hlk
      by_cases hn : n = name
      · subst hn
        rw [alookup_ainsert_self] at hlk
        cases hlk
        exact hty _ info hav
      · rw [alookup_ainsert_ne _ _ _ _ hn] at hlk
        exact hty n info' hlk

/-- `generate_text` only mutates state through its lazy `load_model`. -/
theorem generate_text_state (env : LoadEnv) (genv : GenEnv) (s : ServiceState)
    (name prompt : String) (maxTokens : Nat) :
    (generate_text env genv s name prompt maxTokens).2 =
      if (alookup s.loaded_models name).isNone then (load_model env s name).2
      else s := by
  rw [generate_text]
  by_cases hc : (alookup s.loaded_models name).isNone
  · simp only [if_pos hc]
    split
    · rfl
    · split
      · rfl
      · split
        · rfl
        · split <;> rfl
  · simp only [if_neg hc]
    split
    · rfl
    · split
      · rfl
      · split
        · rfl
        · split <;> rfl

/-- `generate_image` only mutates state through its lazy `load_model`. -/
theorem generate_image_state (env : LoadEnv) (genv : GenEnv) (s : ServiceState)
    (name prompt : String) :
    (generate_image env genv s name prompt).2 =
      if (alookup s.loaded_models name).isNone then (load_model env s name).2
      else s := by
  rw [generate_image]
  by_cases hc : (alookup s.loaded_models name).isNone
  · simp only [if_pos hc]
    split
    · rfl
    · split
      · rfl
      · split
        · rfl
        · split <;> rfl
  · simp only [if_neg hc]
    split
    · rfl
    · split
      · rfl
      · split
        · rfl
        · split <;> rfl

/-- `run_onnx_model` only mutates state through its lazy `load_model`. -/
theorem run_onnx_model_state (env : LoadEnv) (s : ServiceState)
    (name : String) (inputs : List (String × Nat)) :
    (run_onnx_model env s name inputs).2 =
      if (alookup s.loaded_models name).isNone then (load_model env s name).2
      else s := by
  rw [run_onnx_model]
  by_cases hc : (alookup s.loaded_models name).isNone
  · simp only [if_pos hc]
    split
    · rfl
    · split
      · rfl
      · split
        · rfl
        · split
          · split
            · rfl
            · split <;> rfl
          · rfl
  · simp only [if_neg hc]
    split
    · rfl
    · split
      · rfl
      · split
        · rfl
        · split
          · split
            · rfl
            · split <;> rfl
          · rfl

/-- Every operation of the service surface preserves the invariant. -/
theorem applyOp_wf (env : LoadEnv) (genv : GenEnv) (s : ServiceState)
    (op : Op) (h : wellFormed s) : wellFormed (applyOp env genv s op) := by
  cases op with
  | load n => exact load_model_wf env s n h
  | unload n => exact unload_model_wf s n h
  | genText n p mt =>
    rw [applyOp, generate_text_state]
    by_cases hc : (alookup s.loaded_models n).isNone
    · rw [if_pos hc]
      exact load_model_wf env s n h
    · rw [if_neg hc]
      exact h
  | genImage n p =>
    rw [applyOp, generate_image_state]
    by_cases hc : (alookup s.loaded_models n).isNone
    · rw [if_pos hc]
      exact load_model_wf env s n h
    · rw [if_neg hc]
      exact h
  | runOnnx n ins =>
    rw [applyOp, run_onnx_model_state]
    by_cases hc : (alookup s.loaded_models n).isNone
    · rw [if_pos hc]
      exact load_model_wf env s n h
    · rw [if_neg hc]
      exact h

/-- The invariant is inductive over whole call sequences. -/
theorem runOps_wf (env : LoadEnv) (genv : GenEnv) (ops : List Op)
    (s : ServiceState) (h : wellFormed s) :
    wellFormed (runOps env genv s ops) := by
  induction ops generalizing s with
  | nil => exact h
  | cons op rest ih => exact ih (applyOp env genv s op) (applyOp_wf env genv s op h)

/-- A freshly constructed (scanned) service satisfies the invariant: all
descriptors are unloaded with known kinds and no handle exists. -/
theorem initService_wf (fs : FS) : wellFormed (initService fs) := by
  rw [initService]
  have hlm : (scan_models fs init0).2.loaded_models = [] :=
    scan_loaded_models fs init0
  have hval : ∀ n info,
      alookup (scan_models fs init0).2.available_models n = some info →
      info.loaded = false ∧ info.mtype ∈ backendKinds := by
    intro n info hlk
    by_cases hre : fs.rootExists = true
    · rw [scan_available fs init0 hre, alookup_foldIns] at hlk
      cases hlw : lastWrite (scanEvents fs) n with
      | some v =>
        rw [hlw] at hlk
        cases hlk
        exact scanEvents_values fs (n, info) (lastWrite_mem hlw)
      | none =>
        rw [hlw] at hlk
        simp [init0, alookup] at hlk
    · rw [scan_models] at hlk
      have : fs.rootExists = false := by
        cases hb : fs.rootExists
        · rfl
        · exact absurd hb hre
      simp [this, init0, alookup] at hlk
  refine ⟨?_, ?_, ?_⟩
  · intro n
    rw [hlm]
    constructor
    · rintro ⟨info, hinfo, hload⟩
      rw [(hval n info hinfo).1] at hload
      cases hload
    · intro hc
      simp [alookup, Option.isSome] at hc
  · rw [hlm]
    simp [akeys]
  · intro n info hlk
    exact (hval n info hlk).2

/-! ## Equations for `load_model` and supporting lemmas -/

theorem aerase_ainsert_of_none {α : Type} (l : List (String × α)) (k : String)
    (v : α) (h : alookup l k = none) : aerase (ainsert l k v) k = l := by
  induction l with
  | nil => simp [ainsert, aerase]
  | cons p rest ih =>
    rw [alookup] at h
    by_cases hp : p.1 = k
    · rw [if_pos hp] at h
      cases h
    · rw [if_neg hp] at h
      simp only [ainsert, if_neg hp, aerase, if_neg hp]
      rw [ih h]

/-- Whatever `load_model` does, the registry entry for the requested name
keeps its path and type tag; only the `loaded` flag can move. -/
theorem load_model_available_self (env : LoadEnv) (s : ServiceState)
    (name : String) (info : ModelInfo)
    (h : alookup s.available_models name = some info) :
    ∃ b : Bool, alookup (load_model env s name).2.available_models name =
      some ⟨info.path, info.mtype, b⟩ := by
  obtain ⟨pa, mt, lo⟩ := info
  cases lo with
  | true =>
    refine ⟨true, ?_⟩
    simp only [load_model, h]
    exact h
  | false =>
    cases htr : tryLoadHandle env mt pa with
    | error e =>
      refine ⟨false, ?_⟩
      simp only [load_model, h]
      rw [if_neg (by simp : ¬(({ path := pa, mtype := mt, loaded := false } :
        ModelInfo).loaded = true))]
      by_cases hk : mt ∈ backendKinds
      · rw [if_pos hk, htr]
        exact h
      · rw [if_neg hk, htr]
        exact h
    | ok oh =>
      refine ⟨true, ?_⟩
      simp only [load_model, h]
      rw [if_neg (by simp : ¬(({ path := pa, mtype := mt, loaded := false } :
        ModelInfo).loaded = true))]
      by_cases hk : mt ∈ backendKinds
      · rw [if_pos hk, htr]
        cases oh with
        | none => exact alookup_ainsert_self _ _ _
        | some hd => exact alookup_ainsert_self _ _ _
      · rw [if_neg hk, htr]
        cases oh with
        | none => exact alookup_ainsert_self _ _ _
        | some hd => exact alookup_ainsert_self _ _ _

/-- The cold-load failure branch of `load_model`: the backend raised, the
call returns `False`, and the only state change is the recorded attempt. -/
theorem load_model_cold_fail (env : LoadEnv) (s : ServiceState)
    (name : String) (info : ModelInfo)
    (hav : alookup s.available_models name = some info)
    (hcold : info.loaded = false)
    (hkind : info.mtype ∈ backendKinds)
    (hfail : tryLoadHandle env info.mtype info.path = .error ()) :
    load_model env s name =
      (false, { s with loadCalls := s.loadCalls ++ [name] }) := by
  obtain ⟨pa, mt, lo⟩ := info
  have hlo : lo = false := hcold
  subst hlo
  simp only [load_model, hav]
  rw [if_neg (by simp : ¬(({ path := pa, mtype := mt, loaded := false } :
    ModelInfo).loaded = true))]
  rw [if_pos hkind, hfail]

/-- The cold-load success branch of `load_model`: handle inserted, flag set,
attempt recorded, result `True`. -/
theorem load_model_cold_ok (env : LoadEnv) (s : ServiceState)
    (name : String) (info : ModelInfo) (hd : Handle)
    (hav : alookup s.available_models name = some info)
    (hcold : info.loaded = false)
    (hkind : info.mtype ∈ backendKinds)
    (hok : tryLoadHandle env info.mtype info.path = .ok (some hd)) :
    load_model env s name =
      (true,
        ⟨ainsert s.available_models name ⟨info.path, info.mtype, true⟩,
          ainsert s.loaded_models name hd,
          s.loadCalls ++ [name]⟩) := by
  obtain ⟨pa, mt, lo⟩ := info
  have hlo : lo = false := hcold
  subst hlo
  simp only [load_model, hav]
  rw [if_neg (by simp : ¬(({ path := pa, mtype := mt, loaded := false } :
    ModelInfo).loaded = true))]
  rw [if_pos hkind, hok]

/-- Driving a single thread through the step machine agrees with the direct
transcription of `load_model`: the machine is the same code, cut at the
blocking backend call. -/
theorem loadRun_eq_load_model (env : LoadEnv) (s : ServiceState)
    (name : String) : loadRun env s name = load_model env s name := by
  cases halk : alookup s.available_models name with
  | none => simp [loadRun, loadStep, load_model, halk]
  | some info =>
    by_cases hl : info.loaded = true
    · simp [loadRun, loadStep, load_model, halk, hl]
    · cases htr : tryLoadHandle env info.mtype info.path with
      | error e => simp [loadRun, loadStep, load_model, halk, hl, htr]
      | ok oh => simp [loadRun, loadStep, load_model, halk, hl, htr]

/-- The input-gathering loop fails exactly when some required input name is
missing from the supplied map. -/
theorem gatherInputs_none_iff (required : List String)
    (inputs : List (String × Nat)) :
    gatherInputs required inputs = none ↔
      ∃ n, n ∈ required ∧ alookup inputs n = none := by
  induction required with
  | nil => simp [gatherInputs]
  | cons n rest ih =>
    constructor
    · intro h
      rw [gatherInputs] at h
      cases hl : alookup inputs n with
      | none => exact ⟨n, List.mem_cons_self n rest, hl⟩
      | some v =>
        rw [hl] at h
        cases hg : gatherInputs rest inputs with
        | none =>
          obtain ⟨m, hm, hmn⟩ := ih.mp hg
          exact ⟨m, List.mem_cons_of_mem n hm, hmn⟩
        | some acc =>
          rw [hg] at h
          cases h
    · rintro ⟨m, hm, hmn⟩
      rw [gatherInputs]
      rcases List.mem_cons.mp hm with hmn' | hm'
      · subst hmn'
        rw [hmn]
      · cases hl : alookup inputs n with
        | none => rfl
        | some v =>
          rw [ih.mpr ⟨m, hm', hmn⟩]
          rfl

/-- In the nodup case each output name keyed by the dict comprehension maps
to the tensor at the same position of the run's output list. -/
theorem lastWrite_zip_nodup (names : List String) (outs : List Nat)
    (hnd : names.Nodup) (i : Nat) (h1 : i < names.length)
    (h2 : i < outs.length) :
    lastWrite (names.zip outs) (names.get ⟨i, h1⟩) =
      some (outs.get ⟨i, h2⟩) := by
  induction names generalizing outs i with
  | nil => cases h1
  | cons n rest ih =>
    cases outs with
    | nil => cases h2
    | cons o orest =>
      cases i with
      | zero =>
        rw [List.zip_cons_cons, lastWrite]
        have hnmem : n ∉ rest := (List.nodup_cons.mp hnd).1
        have hnone : lastWrite (rest.zip orest) n = none := by
          cases hlw : lastWrite (rest.zip orest) n with
          | none => rfl
          | some v =>
            exact absurd (List.of_mem_zip (lastWrite_mem hlw)).1 hnmem
        rw [show (n :: rest).get ⟨0, h1⟩ = n from rfl, hnone]
        simp
      | succ j =>
        rw [List.zip_cons_cons, lastWrite]
        rw [show (n :: rest).get ⟨j + 1, h1⟩ =
          rest.get ⟨j, Nat.lt_of_succ_lt_succ h1⟩ from rfl]
        rw [ih orest (List.nodup_cons.mp hnd).2 j (Nat.lt_of_succ_lt_succ h1)
          (Nat.lt_of_succ_lt_succ h2)]
        rfl

theorem alookup_buildOutputs (names : List String) (outs : List Nat)
    (hnd : names.Nodup) (i : Nat) (h1 : i < names.length)
    (h2 : i < outs.length) :
    alookup (buildOutputs names outs) (names.get ⟨i, h1⟩) =
      some (outs.get ⟨i, h2⟩) := by
  rw [show buildOutputs names outs = foldIns [] (names.zip outs) from rfl,
    alookup_foldIns, lastWrite_zip_nodup names outs hnd i h1 h2]

/-! ## Claim theorems -/

/-- C1, counterexample: the claim says a `GenerateText` call on an
`ImageDiffusion` (`stable-diffusion`) descriptor never attempts a load and
leaves the loaded flag and handle set unchanged. On the code the lazy
`load_model` runs BEFORE the type check: for the cold diffusion model `sd`
the call does return the error (`none`), but one backend load was invoked
(`loadCalls = ["sd"]`), the descriptor's flag flipped to `true`, and a live
handle now exists. -/
theorem generate_text_image_model_attempts_load_cex :
    (generate_text envOk genvOk (initService fsSD) "sd" "hi" 10).1 = none ∧
    (generate_text envOk genvOk (initService fsSD) "sd" "hi" 10).2.loadCalls
      = ["sd"] ∧
    alookup (generate_text envOk genvOk (initService fsSD) "sd" "hi"
      10).2.available_models "sd" =
      some ⟨"models/sd", "stable-diffusion", true⟩ ∧
    (alookup (generate_text envOk genvOk (initService fsSD) "sd" "hi"
      10).2.loaded_models "sd").isSome = true :=
  ⟨rfl, rfl, rfl, rfl⟩

/-- C1, amended: `generate_text` on a name whose descriptor has type
`stable-diffusion` always returns the type-mismatch failure (`None`) and
never produces text, but the dispatch order is load-then-check: the call
may first materialize the model (flag and handle change for a cold name). -/
theorem generate_text_image_model_returns_error (env : LoadEnv)
    (genv : GenEnv) (s : ServiceState) (name prompt : String)
    (maxTokens : Nat) (info : ModelInfo)
    (hav : alookup s.available_models name = some info)
    (hsd : info.mtype = "stable-diffusion") :
    (generate_text env genv s name prompt maxTokens).1 = none := by
  obtain ⟨b, hb⟩ := load_model_available_self env s name info hav
  simp only [generate_text]
  by_cases hc : (alookup s.loaded_models name).isNone = true
  · rw [if_pos hc]
    cases hres : (load_model env s name).1 with
    | false => simp [hres]
    | true => simp [hres, hb, hsd]
  · rw [if_neg hc]
    simp [hav, hsd]

/-- C1, witness for the amended claim at a concrete input. -/
theorem generate_text_image_model_returns_error_witness :
    alookup (initService fsSD).available_models "sd" =
      some ⟨"models/sd", "stable-diffusion", false⟩ ∧
    (generate_text envOk genvOk (initService fsSD) "sd" "hi" 10).1 = none :=
  ⟨rfl, generate_text_image_model_returns_error envOk genvOk
    (initService fsSD) "sd" "hi" 10 ⟨"models/sd", "stable-diffusion", false⟩
    rfl rfl⟩

/-- C2, counterexample: the claim says N concurrent `load_model` calls for
one cold name invoke the backend load exactly once. The code takes no lock
between the `loaded` check and the handle assignment, so the interleaving
in which both threads pass the check before either commits makes BOTH
invoke the backend: two recorded load calls, not one. -/
theorem concurrent_load_double_invocation_cex :
    (runSched envOk [true, false, true, false]
      (initService fsText, ⟨"m", .start⟩, ⟨"m", .start⟩)).1.loadCalls =
      ["m", "m"] ∧
    ¬((runSched envOk [true, false, true, false]
      (initService fsText, ⟨"m", .start⟩, ⟨"m", .start⟩)).1.loadCalls.length
        = 1) :=
  ⟨rfl, by decide⟩

/-- C2, amended: `load_model` is idempotent only sequentially — once a call
has returned success, a subsequent call for the same name returns the same
success with no further state change and no further backend invocation;
the code has no per-name serialization, and interleaved cold calls can
invoke the backend more than once. -/
theorem load_model_sequential_idempotent (env : LoadEnv)
    (s s' : ServiceState) (name : String)
    (h : load_model env s name = (true, s')) :
    load_model env s' name = (true, s') := by
  rw [load_model] at h
  cases halk : alookup s.available_models name with
  | none =>
    simp only [halk] at h
    exact absurd h (by simp)
  | some info =>
    simp only [halk] at h
    by_cases hl : info.loaded = true
    · rw [if_pos hl] at h
      cases h
      simp [load_model, halk, hl]
    · rw [if_neg hl] at h
      cases htr : tryLoadHandle env info.mtype info.path with
      | error e =>
        simp only [htr] at h
        exact absurd h (by simp)
      | ok oh =>
        simp only [htr] at h
        cases oh with
        | none =>
          cases h
          simp [load_model, alookup_ainsert_self]
        | some hd =>
          cases h
          simp [load_model, alookup_ainsert_self]

/-- C2, witness for the amended claim at a concrete input. -/
theorem load_model_sequential_idempotent_witness :
    load_model envOk (load_model envOk (initService fsText) "m").2 "m" =
      (true, (load_model envOk (initService fsText) "m").2) :=
  load_model_sequential_idempotent envOk (initService fsText) _ "m" rfl

/-- C3, counterexample: the claim says that in every state reachable by the
service operations, `loaded == true` iff a handle exists. Re-running
`scan_models` after a successful load re-registers the artifact with
`loaded: False` while the handle survives in `loaded_models`, so the
post-rescan state violates the iff (and hence `wellFormed`). -/
theorem rescan_breaks_loaded_flag_cex :
    alookup (scan_models fsText
      (load_model envOk (initService fsText) "m").2).2.available_models "m" =
      some ⟨"models/m", "transformers", false⟩ ∧
    (alookup (scan_models fsText
      (load_model envOk (initService fsText) "m").2).2.loaded_models
        "m").isSome = true ∧
    ¬ wellFormed (scan_models fsText
      (load_model envOk (initService fsText) "m").2).2 := by
  refine ⟨rfl, rfl, ?_⟩
  intro hwf
  obtain ⟨hiff, -, -⟩ := hwf
  obtain ⟨info, hinfo, hload⟩ := (hiff "m").mpr rfl
  have hval : alookup (scan_models fsText
      (load_model envOk (initService fsText) "m").2).2.available_models "m" =
      some (⟨"models/m", "transformers", false⟩ : ModelInfo) := rfl
  rw [hval] at hinfo
  cases hinfo
  exact Bool.noConfusion (show false = true from hload)

/-- C3, amended: the invariant — `loaded == true` iff a handle exists, at
most one handle per name — holds in every state reachable from a freshly
scanned service by any sequence of load, unload, text/image generation and
ONNX calls; it is `scan_models` over an already-loaded name (excluded
here and exhibited in the counterexample) that breaks it. -/
theorem lifecycle_invariant_preserved (env : LoadEnv) (genv : GenEnv)
    (fs : FS) (ops : List Op) :
    wellFormed (runOps env genv (initService fs) ops) :=
  runOps_wf env genv ops (initService fs) (initService_wf fs)

/-- C4: when the backend load raises for a registered cold name, `load_model`
returns failure, the registry entry and the handle map are untouched (the
only state change is the recorded attempt, so the flag stays `false` and no
handle is left), and a second call re-runs the backend load from scratch —
the failure is not cached. -/
theorem load_failure_clean_state_and_retry (env : LoadEnv)
    (s : ServiceState) (name : String) (info : ModelInfo)
    (hav : alookup s.available_models name = some info)
    (hcold : info.loaded = false)
    (hkind : info.mtype ∈ backendKinds)
    (hfail : tryLoadHandle env info.mtype info.path = .error ()) :
    load_model env s name =
      (false, { s with loadCalls := s.loadCalls ++ [name] }) ∧
    load_model env { s with loadCalls := s.loadCalls ++ [name] } name =
      (false, { s with loadCalls := (s.loadCalls ++ [name]) ++ [name] }) :=
  ⟨load_model_cold_fail env s name info hav hcold hkind hfail,
    load_model_cold_fail env { s with loadCalls := s.loadCalls ++ [name] }
      name info hav hcold hkind hfail⟩

/-- C4, witness at a concrete input. -/
theorem load_failure_clean_state_and_retry_witness :
    alookup (initService fsText).available_models "m" =
      some ⟨"models/m", "transformers", false⟩ ∧
    load_model envFail (initService fsText) "m" =
      (false, { initService fsText with
        loadCalls := (initService fsText).loadCalls ++ ["m"] }) ∧
    load_model envFail { initService fsText with
        loadCalls := (initService fsText).loadCalls ++ ["m"] } "m" =
      (false, { initService fsText with
        loadCalls := ((initService fsText).loadCalls ++ ["m"]) ++ ["m"] }) := by
  have h := load_failure_clean_state_and_retry envFail (initService fsText)
    "m" ⟨"models/m", "transformers", false⟩ rfl rfl (by decide) rfl
  exact ⟨rfl, h.1, h.2⟩

/-- C5: `unload_model` on a name with no live handle fails and leaves the
state untouched; after a successful cold load followed by an unload, the
flag is back to `false`, the handle is gone, and the next dispatch
(`generate_text`) performs a fresh backend load. -/
theorem unload_semantics :
    (∀ (s : ServiceState) (name : String),
      alookup s.loaded_models name = none →
      unload_model s name = (false, s)) ∧
    (∀ (env : LoadEnv) (genv : GenEnv) (s : ServiceState)
        (name prompt : String) (maxTokens : Nat) (info : ModelInfo)
        (hd : Handle),
      alookup s.available_models name = some info →
      info.loaded = false →
      alookup s.loaded_models name = none →
      info.mtype ∈ backendKinds →
      tryLoadHandle env info.mtype info.path = .ok (some hd) →
      (load_model env s name).1 = true ∧
      (unload_model (load_model env s name).2 name).1 = true ∧
      alookup (unload_model (load_model env s name).2
        name).2.available_models name = some ⟨info.path, info.mtype, false⟩ ∧
      alookup (unload_model (load_model env s name).2
        name).2.loaded_models name = none ∧
      (generate_text env genv (unload_model (load_model env s name).2 name).2
        name prompt maxTokens).2.loadCalls =
        s.loadCalls ++ [name] ++ [name]) := by
  constructor
  · intro s name h
    rw [unload_model, h]
  · intro env genv s name prompt maxTokens info hd hav hcold hnl hkind hok
    have hX := load_model_cold_ok env s name info hd hav hcold hkind hok
    have hU : unload_model (load_model env s name).2 name =
        (true,
          ⟨ainsert (ainsert s.available_models name
              ⟨info.path, info.mtype, true⟩) name
              ⟨info.path, info.mtype, false⟩,
            s.loaded_models,
            s.loadCalls ++ [name]⟩) := by
      rw [hX]
      show unload_model
        ⟨ainsert s.available_models name ⟨info.path, info.mtype, true⟩,
          ainsert s.loaded_models name hd, s.loadCalls ++ [name]⟩ name = _
      rw [unload_model]
      simp only [alookup_ainsert_self]
      rw [aerase_ainsert_of_none s.loaded_models name hd hnl]
    refine ⟨by rw [hX], by rw [hU], ?_, ?_, ?_⟩
    · rw [hU]
      exact alookup_ainsert_self _ _ _
    · rw [hU]
      exact hnl
    · have hY := load_model_cold_ok env
        ⟨ainsert (ainsert s.available_models name
            ⟨info.path, info.mtype, true⟩) name
            ⟨info.path, info.mtype, false⟩,
          s.loaded_models, s.loadCalls ++ [name]⟩ name
        ⟨info.path, info.mtype, false⟩ hd
        (alookup_ainsert_self _ _ _) rfl hkind hok
      rw [generate_text_state, hU]
      show (if (alookup s.loaded_models name).isNone = true
          then (load_model env
            ⟨ainsert (ainsert s.available_models name
                ⟨info.path, info.mtype, true⟩) name
                ⟨info.path, info.mtype, false⟩,
              s.loaded_models, s.loadCalls ++ [name]⟩ name).2
          else ⟨ainsert (ainsert s.available_models name
              ⟨info.path, info.mtype, true⟩) name
              ⟨info.path, info.mtype, false⟩,
            s.loaded_models, s.loadCalls ++ [name]⟩).loadCalls =
        s.loadCalls ++ [name] ++ [name]
      rw [hnl]
      rw [if_pos (by rfl : ((none : Option Handle)).isNone = true)]
      rw [hY]

/-- C5, witness at a concrete input. -/
theorem unload_semantics_witness :
    unload_model (initService fsText) "m" = (false, initService fsText) ∧
    (load_model envOk (initService fsText) "m").1 = true ∧
    (unload_model (load_model envOk (initService fsText) "m").2 "m").1 =
      true ∧
    alookup (unload_model (load_model envOk (initService fsText) "m").2
      "m").2.available_models "m" =
      some ⟨"models/m", "transformers", false⟩ ∧
    alookup (unload_model (load_model envOk (initService fsText) "m").2
      "m").2.loaded_models "m" = none ∧
    (generate_text envOk genvOk
      (unload_model (load_model envOk (initService fsText) "m").2 "m").2
      "m" "hi" 5).2.loadCalls = ["m", "m"] := by
  have h := unload_semantics.2 envOk genvOk (initService fsText) "m" "hi" 5
    ⟨"models/m", "transformers", false⟩ (.text 1 2) rfl rfl rfl (by decide)
    rfl
  exact ⟨unload_semantics.1 (initService fsText) "m" rfl,
    h.1, h.2.1, h.2.2.1, h.2.2.2.1, h.2.2.2.2⟩

/-- C6: after a scan from the initial (empty-registry) state, the listing
has exactly one entry per distinct resolved name — the keys are exactly the
names the walk's classification events resolve to, with no duplicates — and
the descriptor stored under each name is the LAST classification written
for it in scan order (last-write-wins on collisions). -/
theorem scan_last_write_wins (fs : FS) (h : fs.rootExists = true) :
    (akeys (initService fs).available_models).Nodup ∧
    (∀ n, (alookup (initService fs).available_models n).isSome = true ↔
      n ∈ (scanEvents fs).map Prod.fst) ∧
    (∀ n, alookup (initService fs).available_models n =
      lastWrite (scanEvents fs) n) := by
  have hav : (initService fs).available_models = foldIns [] (scanEvents fs) := by
    rw [initService]
    exact scan_available fs init0 h
  refine ⟨?_, ?_, ?_⟩
  · rw [hav]
    exact akeys_foldIns_nodup _ _ (by simp [akeys])
  · intro n
    rw [hav, alookup_foldIns, ← lastWrite_isSome_iff]
    cases hlw : lastWrite (scanEvents fs) n <;> simp [hlw, alookup]
  · intro n
    rw [hav, alookup_foldIns]
    cases hlw : lastWrite (scanEvents fs) n <;> simp [hlw, alookup]

/-- C6, witness: on the colliding tree `fsColl` the name `a` is classified
twice; the registry keeps one entry per name and `a` holds the
later-scanned (stable-diffusion) classification. -/
theorem scan_last_write_wins_witness :
    fsColl.rootExists = true ∧
    (∀ n, alookup (initService fsColl).available_models n =
      lastWrite (scanEvents fsColl) n) ∧
    alookup (initService fsColl).available_models "a" =
      some ⟨"q/a", "stable-diffusion", false⟩ ∧
    akeys (initService fsColl).available_models = ["a", "x"] :=
  ⟨rfl, (scan_last_write_wins fsColl rfl).2.2, rfl, rfl⟩

/-- C7: when the artifact root does not exist, `scan_models` creates it
(the returned filesystem has an existing, empty root), registers nothing,
and returns normally: the state is unchanged and the startup registry is
empty. -/
theorem scan_missing_root_creates_empty (fs : FS) (s : ServiceState)
    (h : fs.rootExists = false) :
    scan_models fs s = (⟨true, []⟩, s) ∧
    (initService fs).available_models = [] := by
  constructor
  · rw [scan_models, if_pos h]
  · rw [initService, scan_models, if_pos h]
    rfl

/-- C7, witness at a concrete input. -/
theorem scan_missing_root_creates_empty_witness :
    (⟨false, []⟩ : FS).rootExists = false ∧
    scan_models ⟨false, []⟩ init0 = (⟨true, []⟩, init0) ∧
    (initService ⟨false, []⟩).available_models = [] :=
  ⟨rfl, (scan_missing_root_creates_empty ⟨false, []⟩ init0 rfl).1,
    (scan_missing_root_creates_empty ⟨false, []⟩ init0 rfl).2⟩

/-- C8: every successful response of the text-generation endpoint bills
exactly the whitespace-token count of the prompt plus the whitespace-token
count of the returned text (`len(prompt.split()) + len(text.split())`). -/
theorem tokens_used_formula (env : LoadEnv) (genv : GenEnv)
    (s : ServiceState) (name prompt : String) (maxTokens : Nat)
    (r : TextGenResponse)
    (h : (generate_text_endpoint env genv s name prompt maxTokens).1 =
      some r) :
    r.tokens_used = (pySplit prompt).length + (pySplit r.text).length := by
  simp only [generate_text_endpoint] at h
  cases hres : (generate_text env genv s name prompt maxTokens).1 with
  | none =>
    simp only [hres] at h
    exact absurd h (by simp)
  | some t =>
    simp only [hres] at h
    by_cases ht : t = ""
    · rw [if_pos ht] at h
      exact absurd h (by simp)
    · rw [if_neg ht] at h
      simp only [Option.some.injEq] at h
      subst h
      rfl

/-- C8, witness at a concrete input: prompt `"a b"` (2 tokens) and
generated text `"a b out"` (3 tokens) bill 5 tokens. -/
theorem tokens_used_formula_witness :
    (generate_text_endpoint envOk genvOk (initService fsText) "m" "a b"
      10).1 = some ⟨"a b out", 5, "m"⟩ ∧
    (5 : Nat) = (pySplit "a b").length + (pySplit "a b out").length :=
  ⟨rfl, tokens_used_formula envOk genvOk (initService fsText) "m" "a b" 10
    ⟨"a b out", 5, "m"⟩ rfl⟩

/-- C9: for a loaded TensorGraph model, `run_onnx_model` fails (returns
`None`, state untouched) whenever some input name required by the session
is missing from the supplied map; when every required name is present it
runs the graph and returns the dict pairing each session output name with
the output tensor at the same position. -/
theorem run_onnx_input_validation (env : LoadEnv) (s : ServiceState)
    (name : String) (sess : OnnxSession) (info : ModelInfo)
    (inputs : List (String × Nat))
    (hlm : alookup s.loaded_models name = some (.onnx sess))
    (hav : alookup s.available_models name = some info)
    (hty : info.mtype = "onnx") :
    ((∃ n, n ∈ sess.inputNames ∧ alookup inputs n = none) →
      run_onnx_model env s name inputs = (none, s)) ∧
    (∀ g, gatherInputs sess.inputNames inputs = some g →
      sess.outputNames.length ≤ (sess.run g).length →
      run_onnx_model env s name inputs =
        (some (buildOutputs sess.outputNames (sess.run g)), s)) ∧
    (sess.outputNames.Nodup →
      ∀ (g : List (String × Nat)) (i : Nat)
        (h1 : i < sess.outputNames.length) (h2 : i < (sess.run g).length),
        alookup (buildOutputs sess.outputNames (sess.run g))
          (sess.outputNames.get ⟨i, h1⟩) =
          some ((sess.run g).get ⟨i, h2⟩)) := by
  refine ⟨?_, ?_, ?_⟩
  · intro hmiss
    have hg : gatherInputs sess.inputNames inputs = none :=
      (gatherInputs_none_iff _ _).mpr hmiss
    simp [run_onnx_model, hlm, hav, hty, hg]
  · intro g hg hlen
    simp [run_onnx_model, hlm, hav, hty, hg, hlen]
  · intro hnd g i h1 h2
    exact alookup_buildOutputs sess.outputNames (sess.run g) hnd i h1 h2

/-- C9, witness: on the one-input session `sess0`, the empty input map is
rejected with `None`, and the complete map `[("a", 5)]` yields the output
dict `[("o", 42)]`. -/
theorem run_onnx_input_validation_witness :
    run_onnx_model envOk sOnnx "x" [] = (none, sOnnx) ∧
    run_onnx_model envOk sOnnx "x" [("a", 5)] = (some [("o", 42)], sOnnx) := by
  have hmiss := (run_onnx_input_validation envOk sOnnx "x" sess0
    ⟨"models/x.onnx", "onnx", true⟩ [] rfl rfl rfl).1
  have hfull := (run_onnx_input_validation envOk sOnnx "x" sess0
    ⟨"models/x.onnx", "onnx", true⟩ [("a", 5)] rfl rfl rfl).2.1
  exact ⟨hmiss ⟨"a", by decide, rfl⟩, hfull [("a", 5)] rfl (by decide)⟩

/-- C10: both generation endpoints gate the service result with a Python
falsy test, so an endpoint failure is returned exactly when the service
produced `None` OR an empty (but otherwise successful) output — an empty
successful generation is indistinguishable from a backend failure and is
never returned to the caller. -/
theorem empty_generation_indistinguishable_from_failure (env : LoadEnv)
    (genv : GenEnv) (s : ServiceState) (name prompt : String)
    (maxTokens : Nat) :
    ((generate_text_endpoint env genv s name prompt maxTokens).1 = none ↔
      ((generate_text env genv s name prompt maxTokens).1 = none ∨
       (generate_text env genv s name prompt maxTokens).1 = some "")) ∧
    ((generate_image_endpoint env genv s name prompt).1 = none ↔
      ((generate_image env genv s name prompt).1 = none ∨
       (generate_image env genv s name prompt).1 = some [])) := by
  constructor
  · cases hres : (generate_text env genv s name prompt maxTokens).1 with
    | none => simp [generate_text_endpoint, hres]
    | some t =>
      by_cases ht : t = ""
      · subst ht
        simp [generate_text_endpoint, hres]
      · simp [generate_text_endpoint, hres, ht]
  · cases hres : (generate_image env genv s name prompt).1 with
    | none => simp [generate_image_endpoint, hres]
    | some bs =>
      by_cases hb : bs = []
      · subst hb
        simp [generate_image_endpoint, hres]
      · simp [generate_image_endpoint, hres, hb]

end ModelServiceSpec
